import Mathlib

/-!
# Reliable Delivery Core: a shallow embedding

This file embeds the two core subsystems of the relay daemon in Lean 4 and
proves (or refutes) the claims of the specification about them.

* `ASQ` embeds the serialized command queue (`AppleScriptQueue` in
  `src/applescript/queue.js`): `enqueue` / `enqueueInline`, the
  `processQueue` worker with its retry logic, `clearQueue` and
  `getQueueDepth`.  The cooperative concurrency of the queue (the `processing`
  flag, the promise-chain mutex, executor completion callbacks) is embedded
  as a labelled transition system: external events (`enq`, `clear`) and
  scheduler events (`start` = the mutex runs the next chained execution,
  `finish` = the in-flight executor call settles).  The state carries
  instrumentation logs (executor invocations, settlements, timer sleeps)
  so that trace properties can be stated about it.

* `RTM` embeds the delivery channel manager (`RealtimeManager` in
  `src/supabase/realtime.js`): `initialize`, the subscription status
  callback, `startPolling` / `stopPolling`, `pollPendingMessages` and
  `shutdown`, again as a transition system with a chronological action log.
-/

namespace ASQ

/-- Payload of a queued task: `enqueue(scriptName, params)` pushes a named
script task, `enqueueInline(script)` pushes an inline script task. -/
inductive ScriptPayload : Type
  | named (scriptName : String) (params : List (String × String))
  | inline (script : String)
  deriving DecidableEq, Repr

/-- A queued task, as pushed by `enqueue`/`enqueueInline`:
`attempts` starts at 0 and `maxAttempts` is the hard-coded 3.  The
`resolve`/`reject` closures of the source are represented by the task `id`,
against which settlements are recorded in the `settled` log of the state. -/
structure Task : Type where
  id : Nat
  payload : ScriptPayload
  attempts : Nat
  maxAttempts : Nat
  deriving DecidableEq, Repr

/-- How the caller-visible promise of a task settled:
`resolved r` for `task.resolve(result)` and `rejected e` for
`task.reject(error)` (clearQueue rejects with the error message
`"Task cancelled: " ++ reason`). -/
inductive Outcome : Type
  | resolved (r : String)
  | rejected (e : String)
  deriving DecidableEq, Repr

/-- Queue state.  `queue` and `processing` are the fields of the source
class.  `chain` holds executions that have been appended to the promise
mutex by `processQueue` but have not started yet, and `running` holds the
executions currently inside the executor (the source relies on the mutex and
the `processing` flag to keep this a singleton; here it is a list so that
the at-most-one property is a theorem, not a modelling assumption).
`invocations` logs the task id of every executor invocation in order,
`settled` logs every promise settlement, `sleeps` logs every timer delay the
queue awaits between steps (the source performs none), and `nextId` numbers
tasks in submission order. -/
structure QState : Type where
  queue : List Task
  processing : Bool
  chain : List Task
  running : List Task
  invocations : List Nat
  settled : List (Nat × Outcome)
  sleeps : List Nat
  nextId : Nat
  deriving DecidableEq, Repr

/-- The freshly constructed queue (`new AppleScriptQueue()`). -/
def qInit : QState :=
  { queue := [], processing := false, chain := [], running := []
    invocations := [], settled := [], sleeps := [], nextId := 0 }

/-- `processQueue`, up to its first suspension: if the queue is empty it
clears `processing` and returns; otherwise it sets `processing`, shifts the
head task and appends its execution to the mutex chain. -/
def processQueue (s : QState) : QState :=
  match s.queue with
  | [] => { s with processing := false }
  | t :: rest =>
      { s with processing := true, queue := rest, chain := s.chain ++ [t] }

/-- Shared body of `enqueue` and `enqueueInline` (the two source methods
differ only in the payload fields of the pushed record): push a task with
`attempts = 0`, `maxAttempts = 3`, then start processing if not already in
progress. -/
def enqueueTask (s : QState) (p : ScriptPayload) : QState :=
  let t : Task := { id := s.nextId, payload := p, attempts := 0, maxAttempts := 3 }
  let s' := { s with queue := s.queue ++ [t], nextId := s.nextId + 1 }
  if s'.processing then s' else processQueue s'

/-- `enqueue(scriptName, params)`. -/
def enqueue (s : QState) (scriptName : String) (params : List (String × String)) : QState :=
  enqueueTask s (ScriptPayload.named scriptName params)

/-- `enqueueInline(script)`. -/
def enqueueInline (s : QState) (script : String) : QState :=
  enqueueTask s (ScriptPayload.inline script)

/-- The mutex runs the next chained execution: only enabled when the chain
is nonempty.  The executor invocation is logged. -/
def startExec (s : QState) : Option QState :=
  match s.chain with
  | [] => none
  | t :: rest =>
      some { s with chain := rest, running := s.running ++ [t]
                    invocations := s.invocations ++ [t.id] }

/-- The in-flight executor call settles with `out`.  On success the corresponding task
promise is resolved; on failure, if `attempts < maxAttempts` the task is
put back at the front of the queue with `attempts` incremented, otherwise
its promise is rejected with the error.  Either way `processQueue` is then
called to process the next task.  Only enabled when a call is in flight. -/
def finishExec (s : QState) (out : Except String String) : Option QState :=
  match s.running with
  | [] => none
  | t :: rest =>
      let s1 := { s with running := rest }
      match out with
      | Except.ok r =>
          some (processQueue
            { s1 with settled := s1.settled ++ [(t.id, Outcome.resolved r)] })
      | Except.error e =>
          if t.attempts < t.maxAttempts then
            some (processQueue
              { s1 with queue := { t with attempts := t.attempts + 1 } :: s1.queue })
          else
            some (processQueue
              { s1 with settled := s1.settled ++ [(t.id, Outcome.rejected e)] })

/-- `clearQueue(reason)`: if any tasks are pending, reject each with
`Error("Task cancelled: " ++ reason)` and empty the queue. -/
def clearQueue (s : QState) (reason : String) : QState :=
  if s.queue.length > 0 then
    { s with
        settled := s.settled ++
          s.queue.map (fun t => (t.id, Outcome.rejected ("Task cancelled: " ++ reason)))
        queue := [] }
  else s

/-- `getQueueDepth()`: the number of tasks in the queue. -/
def getQueueDepth (s : QState) : Nat :=
  s.queue.length

/-- Events of the transition system of the queue: the public API calls plus the
two scheduler events. -/
inductive QEvent : Type
  | enq (scriptName : String) (params : List (String × String))
  | enqInline (script : String)
  | start
  | finish (out : Except String String)
  | clear (reason : String)

/-- One transition.  `none` means the event is not enabled in `s`. -/
def qstep (s : QState) : QEvent → Option QState
  | QEvent.enq n ps => some (enqueue s n ps)
  | QEvent.enqInline sc => some (enqueueInline s sc)
  | QEvent.start => startExec s
  | QEvent.finish out => finishExec s out
  | QEvent.clear r => some (clearQueue s r)

/-- Run a list of events from a state, failing if any event is not
enabled. -/
def runEvents (s : QState) : List QEvent → Option QState
  | [] => some s
  | e :: es =>
      match qstep s e with
      | none => none
      | some s' => runEvents s' es

/-- States reachable from the fresh queue. -/
inductive QReachable : QState → Prop
  | init : QReachable qInit
  | step {s s' : QState} (e : QEvent) :
      QReachable s → qstep s e = some s' → QReachable s'


/-- The serialization invariant: the mutex chain and the executor together
hold at most one execution, and an idle queue (`processing = false`) is
completely quiescent. -/
def QInv (s : QState) : Prop :=
  s.chain.length + s.running.length ≤ 1 ∧
  (s.processing = false → s.queue = [] ∧ s.chain = [] ∧ s.running = [])

lemma qinv_qInit : QInv qInit := by
  constructor <;> simp [qInit]

lemma qinv_processQueue {s : QState} (hc : s.chain = []) (hr : s.running = []) :
    QInv (processQueue s) := by
  cases hq : s.queue with
  | nil => simp [QInv, processQueue, hq, hc, hr]
  | cons t rest => simp [QInv, processQueue, hq, hc, hr]

lemma qinv_enqueueTask {s : QState} (h : QInv s) (p : ScriptPayload) :
    QInv (enqueueTask s p) := by
  obtain ⟨h1, h2⟩ := h
  unfold enqueueTask
  cases hp : s.processing with
  | true =>
      refine ⟨by simpa using h1, ?_⟩
      intro hfalse
      simp [hp] at hfalse
  | false =>
      obtain ⟨hq, hc, hr⟩ := h2 hp
      simp only [hp, if_false]
      exact qinv_processQueue (by simpa using hc) (by simpa using hr)

lemma qinv_startExec {s s' : QState} (h : QInv s) (hs : startExec s = some s') :
    QInv s' := by
  obtain ⟨h1, h2⟩ := h
  unfold startExec at hs
  cases hc : s.chain with
  | nil => rw [hc] at hs; cases hs
  | cons t rest =>
      rw [hc] at hs
      rw [hc] at h1
      have hrest : rest = [] := by
        have := h1
        simp only [List.length_cons] at this
        exact List.length_eq_zero.mp (by omega)
      have hr : s.running = [] := by
        have := h1
        simp only [List.length_cons] at this
        exact List.length_eq_zero.mp (by omega)
      cases hs
      constructor
      · simp [hrest, hr]
      · intro hp
        obtain ⟨_, hce, _⟩ := h2 hp
        rw [hc] at hce
        cases hce

lemma qinv_finishExec {s s' : QState} {out : Except String String} (h : QInv s)
    (hf : finishExec s out = some s') : QInv s' := by
  obtain ⟨h1, h2⟩ := h
  unfold finishExec at hf
  cases hr : s.running with
  | nil => rw [hr] at hf; cases hf
  | cons t rest =>
      rw [hr] at hf
      rw [hr] at h1
      have hrest : rest = [] := by
        simp only [List.length_cons] at h1
        exact List.length_eq_zero.mp (by omega)
      have hc : s.chain = [] := by
        simp only [List.length_cons] at h1
        exact List.length_eq_zero.mp (by omega)
      cases out with
      | ok r =>
          simp only [] at hf
          cases hf
          exact qinv_processQueue (by simpa using hc) (by simpa using hrest)
      | error e =>
          simp only [] at hf
          by_cases ha : t.attempts < t.maxAttempts
          · rw [if_pos ha] at hf
            cases hf
            exact qinv_processQueue (by simpa using hc) (by simpa using hrest)
          · rw [if_neg ha] at hf
            cases hf
            exact qinv_processQueue (by simpa using hc) (by simpa using hrest)

lemma qinv_clearQueue {s : QState} (h : QInv s) (r : String) :
    QInv (clearQueue s r) := by
  obtain ⟨h1, h2⟩ := h
  unfold clearQueue
  by_cases hq : s.queue.length > 0
  · rw [if_pos hq]
    refine ⟨by simpa using h1, ?_⟩
    intro hp
    obtain ⟨_, hc, hrr⟩ := h2 hp
    exact ⟨rfl, by simpa using hc, by simpa using hrr⟩
  · rw [if_neg hq]
    exact ⟨h1, h2⟩

/-- Every reachable queue state satisfies the serialization invariant. -/
lemma qinv_reachable {s : QState} (h : QReachable s) : QInv s := by
  induction h with
  | init => exact qinv_qInit
  | step e _ hstep ih =>
      cases e with
      | enq n ps =>
          simp only [qstep, Option.some.injEq] at hstep
          rw [← hstep]
          exact qinv_enqueueTask ih _
      | enqInline sc =>
          simp only [qstep, Option.some.injEq] at hstep
          rw [← hstep]
          exact qinv_enqueueTask ih _
      | start => exact qinv_startExec ih hstep
      | finish out => exact qinv_finishExec ih hstep
      | clear r =>
          simp only [qstep, Option.some.injEq] at hstep
          rw [← hstep]
          exact qinv_clearQueue ih r

lemma processQueue_settled (s : QState) : (processQueue s).settled = s.settled := by
  unfold processQueue
  cases s.queue <;> rfl

/-- **C1**: for every sequence of enqueue/enqueueInline calls (interleaved
with scheduler events) on one queue instance, at most one command is inside
the Executor at any instant (`running.length ≤ 1`); an executor invocation
can only begin when the mutex chain is nonempty, and whenever the chain is
nonempty nothing is in flight, so the Executor is never invoked for a
second command before the prior invocation settled; and an enqueue arriving
while the worker is idle (`processing = false`) restarts the worker exactly
once: it marks the worker as processing and schedules exactly one
execution. -/
theorem c1_serialized_execution (s : QState) (h : QReachable s) (p : ScriptPayload) :
    s.running.length ≤ 1 ∧
    (s.chain ≠ [] → s.running = []) ∧
    (s.processing = false →
      (enqueueTask s p).processing = true ∧
      (enqueueTask s p).chain.length = 1 ∧
      (enqueueTask s p).running = []) := by
  obtain ⟨h1, h2⟩ := qinv_reachable h
  refine ⟨by omega, ?_, ?_⟩
  · intro hc
    cases hcc : s.chain with
    | nil => exact absurd hcc hc
    | cons t rest =>
        rw [hcc] at h1
        simp only [List.length_cons] at h1
        exact List.length_eq_zero.mp (by omega)
  · intro hp
    obtain ⟨hq, hc, hr⟩ := h2 hp
    unfold enqueueTask
    simp [hp, hq, hc, hr, processQueue]

/-- Witness for `c1_serialized_execution`, at the freshly constructed
(idle) queue and an inline script payload. -/
theorem c1_serialized_execution_witness :
    qInit.running.length ≤ 1 ∧
    (enqueueTask qInit (ScriptPayload.inline "tell")).processing = true ∧
    (enqueueTask qInit (ScriptPayload.inline "tell")).chain.length = 1 ∧
    (enqueueTask qInit (ScriptPayload.inline "tell")).running = [] := by
  obtain ⟨h1, _, h3⟩ :=
    c1_serialized_execution qInit QReachable.init (ScriptPayload.inline "tell")
  exact ⟨h1, h3 rfl⟩

/-- The forced event trace of a single command whose every executor
invocation fails with error `e`: after each failure the retried task is the
only scheduled execution, until the fourth failed invocation exhausts the
retries. -/
def alwaysFailTrace (n : String) (ps : List (String × String)) (e : String) :
    List QEvent :=
  [QEvent.enq n ps,
   QEvent.start, QEvent.finish (Except.error e),
   QEvent.start, QEvent.finish (Except.error e),
   QEvent.start, QEvent.finish (Except.error e),
   QEvent.start, QEvent.finish (Except.error e)]

/-- The forced event trace of a single command whose first executor
invocation fails with `e` and whose second succeeds with `r`. -/
def failOnceTrace (n : String) (ps : List (String × String)) (e r : String) :
    List QEvent :=
  [QEvent.enq n ps,
   QEvent.start, QEvent.finish (Except.error e),
   QEvent.start, QEvent.finish (Except.ok r)]

/-- **C2**: a command whose Executor always fails is invoked
`maxAttempts + 1 = 4` times in total (the stored `maxAttempts = 3` counts
retries, i.e. 4 total attempts per the data model), after which its promise
is rejected with the terminal error and the queue is quiescent; a command
that fails once and then succeeds is invoked exactly twice and resolves
with the success result. -/
theorem c2_bounded_retry (n : String) (ps : List (String × String)) (e r : String) :
    (runEvents qInit (alwaysFailTrace n ps e)).map
        (fun s => (s.invocations, s.settled, s.queue, s.chain, s.running)) =
      some ([0, 0, 0, 0], [(0, Outcome.rejected e)], [], [], []) ∧
    (enqueueTask qInit (ScriptPayload.named n ps)).chain.map Task.maxAttempts = [3] ∧
    (runEvents qInit (failOnceTrace n ps e r)).map
        (fun s => (s.invocations, s.settled)) =
      some ([0, 0], [(0, Outcome.resolved r)]) :=
  ⟨rfl, rfl, rfl⟩

/-- Modelled from the spec: the retry delay the specification claims the
queue waits between a failed attempt and its retry — base delay (default
1000 ms) times 2^(attempts-1). The queue source contains no such delay
(the `withRetry` helper in `src/utils/error-handler.js` implements this
formula but is not used by the queue). -/
def specRetryDelayMs (base attempts : Nat) : Nat := base * 2 ^ (attempts - 1)

/-- **C3, counterexample**: in the run where the first invocation of a
command fails and the command is then retried (a second invocation occurs),
the sleep log of the queue is empty: the queue awaited no delay at all
between the failed attempt and the retry, while the claim requires a wait
of `specRetryDelayMs 1000 1 = 1000` ms. The transition system has no delay
transition because the source retry path contains none. -/
theorem c3_counterexample :
    (runEvents qInit
        [QEvent.enq "send_text" [], QEvent.start,
         QEvent.finish (Except.error "boom"), QEvent.start]).map
        (fun s => (s.invocations, s.sleeps)) = some ([0, 0], []) ∧
    specRetryDelayMs 1000 1 = 1000 ∧
    ([] : List Nat) ≠ [specRetryDelayMs 1000 1] :=
  ⟨rfl, rfl, by decide⟩

/-- **C3, amended**: between a failed attempt and the retry the queue waits
no delay at all: settling a failed in-flight command with retries left
immediately schedules the retried command as the sole chained execution —
ahead of every pending command, so no other command begins execution before
the retry — and the sleep log is unchanged (no wait occurs). -/
theorem c3_amended (s : QState) (t : Task) (e : String)
    (hr : s.running = [t]) (hc : s.chain = []) (ha : t.attempts < t.maxAttempts) :
    finishExec s (Except.error e) =
      some { s with
               running := [], processing := true,
               chain := [{ t with attempts := t.attempts + 1 }] } := by
  cases s with
  | mk q pr ch run inv st sl ni =>
      simp only at hr hc
      subst hr; subst hc
      simp [finishExec, processQueue, ha]

/-- Concrete state for the `c3_amended` witness: one command in flight on
an otherwise fresh queue. -/
def c3WitState : QState :=
  { qInit with
      processing := true
      running := [{ id := 0, payload := ScriptPayload.inline "x",
                    attempts := 0, maxAttempts := 3 }]
      nextId := 1 }

/-- Witness for `c3_amended`. -/
theorem c3_amended_witness :
    finishExec c3WitState (Except.error "boom") =
      some { c3WitState with
               running := [], processing := true,
               chain := [{ id := 0, payload := ScriptPayload.inline "x",
                           attempts := 1, maxAttempts := 3 }] } :=
  c3_amended c3WitState
    { id := 0, payload := ScriptPayload.inline "x", attempts := 0, maxAttempts := 3 }
    "boom" rfl rfl (by decide)

/-- **C7**: `clearQueue(reason)` on a state with pending commands and at
most one command in flight empties the pending queue, rejects every drained
command with the `Task cancelled: reason` error, and leaves the in-flight
command (and the mutex chain and the invocation log) untouched; the
in-flight command still settles normally afterwards. -/
theorem c7_cancel_all (s : QState) (reason : String) (t : Task) (r : String)
    (hpend : s.queue ≠ []) (_hflight : s.running.length ≤ 1) :
    (clearQueue s reason).queue = [] ∧
    (clearQueue s reason).settled =
      s.settled ++ s.queue.map
        (fun u => (u.id, Outcome.rejected ("Task cancelled: " ++ reason))) ∧
    (clearQueue s reason).running = s.running ∧
    (clearQueue s reason).chain = s.chain ∧
    (clearQueue s reason).invocations = s.invocations ∧
    (s.running = [t] →
      (finishExec (clearQueue s reason) (Except.ok r)).map QState.settled =
        some ((clearQueue s reason).settled ++ [(t.id, Outcome.resolved r)])) := by
  have hlen : s.queue.length > 0 := List.length_pos.mpr hpend
  unfold clearQueue
  rw [if_pos hlen]
  refine ⟨rfl, rfl, rfl, rfl, rfl, ?_⟩
  intro hrt
  simp [finishExec, hrt, processQueue_settled]

/-- Tasks for the `c7_cancel_all` witness. -/
def c7WitTask (i : Nat) : Task :=
  { id := i, payload := ScriptPayload.inline "w", attempts := 0, maxAttempts := 3 }

/-- Concrete state for the `c7_cancel_all` witness: three pending commands
and one in-flight command, the scenario of the specification. -/
def c7WitState : QState :=
  { qInit with
      processing := true
      queue := [c7WitTask 1, c7WitTask 2, c7WitTask 3]
      running := [c7WitTask 0]
      nextId := 4 }

/-- Witness for `c7_cancel_all`: `cancelAll("shutdown")` with three pending
commands and one in-flight command. -/
theorem c7_cancel_all_witness :
    (clearQueue c7WitState "shutdown").queue = [] ∧
    (clearQueue c7WitState "shutdown").settled =
      c7WitState.settled ++ c7WitState.queue.map
        (fun u => (u.id, Outcome.rejected ("Task cancelled: " ++ "shutdown"))) ∧
    (clearQueue c7WitState "shutdown").running = c7WitState.running ∧
    (clearQueue c7WitState "shutdown").chain = c7WitState.chain ∧
    (clearQueue c7WitState "shutdown").invocations = c7WitState.invocations ∧
    (finishExec (clearQueue c7WitState "shutdown") (Except.ok "OK")).map QState.settled =
      some ((clearQueue c7WitState "shutdown").settled ++ [(0, Outcome.resolved "OK")]) := by
  obtain ⟨h1, h2, h3, h4, h5, h6⟩ :=
    c7_cancel_all c7WitState "shutdown" (c7WitTask 0) "OK" (by decide) (by decide)
  exact ⟨h1, h2, h3, h4, h5, h6 rfl⟩

/-- **C8**: with commands A then B enqueued in that order, if the first
attempt of A fails while B is pending, the next executor invocation is the
retry of A (task id 0, now at attempt count 1) while B (task id 1) is still
waiting: a retried command re-enters at the head, ahead of commands
submitted after it. -/
theorem c8_retry_order (a b : String) (pa pb : List (String × String)) (e : String) :
    (runEvents qInit
        [QEvent.enq a pa, QEvent.enq b pb, QEvent.start,
         QEvent.finish (Except.error e), QEvent.start]).map
        (fun s => (s.invocations, s.running.map Task.id,
                   s.running.map Task.attempts, s.queue.map Task.id)) =
      some ([0, 0], [0], [1], [1]) :=
  rfl

/-- **C10**: `getQueueDepth` is embedded as a pure projection of the state
(the source method only reads `this.queue.length`, so it cannot mutate
queue state); it counts only pending commands and excludes the command in
flight: while one command is executing and no others are pending it returns
0. -/
theorem c10_queue_depth (s : QState) (n : String) (ps : List (String × String)) :
    getQueueDepth s = s.queue.length ∧
    (runEvents qInit [QEvent.enq n ps, QEvent.start]).map
        (fun s' => (getQueueDepth s', s'.running.length, s'.queue)) =
      some (0, 1, []) :=
  ⟨rfl, rfl⟩

end ASQ

namespace RTM

/-- A row of the `messages_out` table, as seen by the manager. -/
structure Item : Type where
  id : Nat
  createdAt : Nat
  status : String
  deriving DecidableEq, Repr

/-- The shape of a pull query: table, status equality filter, optional
`created_at` lower bound, and sort direction. -/
structure QueryDesc : Type where
  table : String
  statusEq : String
  lowerBound : Option Nat
  ascending : Bool
  deriving DecidableEq, Repr

/-- The query the source issues on every poll cycle:
`.from('messages_out').select('*').eq('status', 'pending').order('created_at', ascending)`
— note: no lower bound of any kind. -/
def pendingQuery : QueryDesc :=
  { table := "messages_out", statusEq := "pending", lowerBound := none, ascending := true }

/-- Order on items by `created_at` (oldest first). -/
def createdLe (a b : Item) : Prop := a.createdAt ≤ b.createdAt

instance : DecidableRel createdLe := fun a b => Nat.decLe a.createdAt b.createdAt

instance : IsTotal Item createdLe := ⟨fun a b => Nat.le_total a.createdAt b.createdAt⟩

instance : IsTrans Item createdLe := ⟨fun _ _ _ => Nat.le_trans⟩

/-- Semantics of the pull-query capability for `pendingQuery`: the rows
with `status = 'pending'`, ordered by `created_at` ascending. -/
def runQuery (db : List Item) : List Item :=
  List.insertionSort createdLe (db.filter (fun m => m.status == "pending"))

/-- The failover mode of the specification FSM
(`Disconnected / Subscribing / PushActive / PollFallback`), tracked as ghost
instrumentation alongside the boolean flags of the source and driven by the
same events, so that mode-level properties can be stated. -/
inductive Mode : Type
  | disconnected
  | subscribing
  | pushActive
  | pollFallback
  deriving DecidableEq, Repr

/-- Chronological log of the externally visible actions of the manager. -/
inductive RTAction : Type
  | subscribeChannel
  | setLastPoll (t : Nat)
  | query (q : QueryDesc)
  | handlerCall (itemId : Nat)
  | startTimer (freqMs : Nat)
  | stopTimer
  | unsubscribe
  deriving DecidableEq, Repr

/-- Manager state: the fields of the source class
(`subscription` and `pollingInterval` abstracted to flags for registration
and timer activity), plus the ghost `mode` and the action log. -/
structure RTState : Type where
  subscriptionActive : Bool
  pollingTimer : Bool
  pollingFrequency : Nat
  isPolling : Bool
  isRealtimeConnected : Bool
  lastPollTime : Option Nat
  handlerRegistered : Bool
  mode : Mode
  log : List RTAction
  deriving DecidableEq, Repr

/-- The freshly constructed manager (`new RealtimeManager()`):
`pollingFrequency = 5000` ms. -/
def rtInit : RTState :=
  { subscriptionActive := false, pollingTimer := false, pollingFrequency := 5000
    isPolling := false, isRealtimeConnected := false, lastPollTime := none
    handlerRegistered := false, mode := Mode.disconnected, log := [] }

/-- The external world one poll cycle observes: the clock reading taken at
the start of the cycle, the datastore rows, whether the query itself
errors, and on which items the consumer callback throws. -/
structure PollEnv : Type where
  now : Nat
  db : List Item
  queryFails : Bool
  handlerFails : Item → Bool

/-- The `for (const message of data) await this.messageHandler(message)`
loop: returns the items actually handed to the callback, in order, and
whether the loop was aborted by a callback exception.  A thrown callback
exception propagates out of the loop (to the surrounding catch), so the
items after the failing one are not handed over. -/
def deliverBatch (fails : Item → Bool) : List Item → List Item × Bool
  | [] => ([], false)
  | m :: rest =>
      if fails m then ([m], true)
      else
        let p := deliverBatch fails rest
        (m :: p.1, p.2)

/-- `pollPendingMessages()`: sets `lastPollTime` to the cycle start time
first, then issues the pending-status query, then hands each returned row
to the callback; every error is caught inside this method, leaving the
timer and the flags untouched. -/
def pollPendingMessages (s : RTState) (env : PollEnv) : RTState :=
  let s1 := { s with lastPollTime := some env.now
                     log := s.log ++ [RTAction.setLastPoll env.now] }
  let s2 := { s1 with log := s1.log ++ [RTAction.query pendingQuery] }
  if env.queryFails then s2
  else if s.handlerRegistered then
    { s2 with log := s2.log ++
        ((deliverBatch env.handlerFails (runQuery env.db)).1.map
          (fun m => RTAction.handlerCall m.id)) }
  else s2

/-- `startPolling()`: no-op when already polling; otherwise marks polling,
clears any stale interval and installs the recurring interval at
`pollingFrequency`. -/
def startPolling (s : RTState) : RTState :=
  if s.isPolling then s
  else
    let s1 := { s with isPolling := true }
    let s2 :=
      if s1.pollingTimer then
        { s1 with pollingTimer := false, log := s1.log ++ [RTAction.stopTimer] }
      else s1
    { s2 with pollingTimer := true, log := s2.log ++ [RTAction.startTimer s2.pollingFrequency] }

/-- `stopPolling()`: clears the interval if installed and unmarks
polling. -/
def stopPolling (s : RTState) : RTState :=
  let s1 :=
    if s.pollingTimer then
      { s with pollingTimer := false, log := s.log ++ [RTAction.stopTimer] }
    else s
  { s1 with isPolling := false }

/-- `initialize(messageHandler)` (named `initializeMgr` here): registers
the handler, sets up the push subscription, then performs one reconciliation
poll; if the subscription setup itself throws, starts the polling fallback
instead (and the initial poll does not run).  An initial-poll failure is
caught without starting polling, which is already the behavior of
`pollPendingMessages` itself. -/
def initializeMgr (s : RTState) (env : PollEnv) (setupFails : Bool) : RTState :=
  let s1 := { s with handlerRegistered := true }
  if setupFails then
    { startPolling s1 with mode := Mode.pollFallback }
  else
    let s2 := { s1 with subscriptionActive := true, mode := Mode.subscribing
                        log := s1.log ++ [RTAction.subscribeChannel] }
    pollPendingMessages s2 env

/-- The subscription status callback: `SUBSCRIBED` marks the push channel
connected and stops polling if it was the active fallback; `CHANNEL_ERROR`
marks it disconnected and starts polling unless already polling; any other
status is ignored. -/
def onStatus (s : RTState) (status : String) : RTState :=
  if status = "SUBSCRIBED" then
    let s1 := { s with isRealtimeConnected := true, mode := Mode.pushActive }
    if s1.isPolling then stopPolling s1 else s1
  else if status = "CHANNEL_ERROR" then
    let s1 := { s with isRealtimeConnected := false, mode := Mode.pollFallback }
    if s1.isPolling then s1 else startPolling s1
  else s

/-- The push (`postgres_changes` INSERT) callback: hands the new row to the
registered handler. -/
def onPush (s : RTState) (item : Item) : RTState :=
  if s.handlerRegistered then
    { s with log := s.log ++ [RTAction.handlerCall item.id] }
  else s

/-- `shutdown()`: unsubscribes the channel if registered, clears the
interval if installed, and resets the flags. -/
def shutdown (s : RTState) : RTState :=
  let s1 :=
    if s.subscriptionActive then
      { s with subscriptionActive := false, log := s.log ++ [RTAction.unsubscribe] }
    else s
  let s2 :=
    if s1.pollingTimer then
      { s1 with pollingTimer := false, log := s1.log ++ [RTAction.stopTimer] }
    else s1
  { s2 with isPolling := false, isRealtimeConnected := false, mode := Mode.disconnected }

/-- Extracts the query of a logged action, if it is one. -/
def queryOfAction : RTAction → Option QueryDesc
  | RTAction.query q => some q
  | _ => none

/-- Extracts the consumer-callback item id of a logged action, if it is
one. -/
def handlerCallOfAction : RTAction → Option Nat
  | RTAction.handlerCall i => some i
  | _ => none

/-- The queries issued so far, in order. -/
def queriesOf (s : RTState) : List QueryDesc :=
  s.log.filterMap queryOfAction

/-- The item ids handed to the consumer callback so far, in order. -/
def handlerCallsOf (s : RTState) : List Nat :=
  s.log.filterMap handlerCallOfAction

/-- Events of the transition system of the manager: the two API calls, the
status signals of the subscription, push deliveries, and timer ticks
(enabled only while the recurring interval is installed). -/
inductive RTEvent : Type
  | start (env : PollEnv) (setupFails : Bool)
  | status (st : String)
  | tick (env : PollEnv)
  | push (item : Item)
  | stop

/-- One transition.  `none` means the event is not enabled in `s`:
`initialize` is called once, status callbacks only fire for a registered
subscription, push deliveries require the registered subscription, and
ticks require the installed interval. -/
def rtstep (s : RTState) : RTEvent → Option RTState
  | RTEvent.start env sf =>
      if s.handlerRegistered then none else some (initializeMgr s env sf)
  | RTEvent.status st =>
      if s.subscriptionActive then some (onStatus s st) else none
  | RTEvent.tick env =>
      if s.pollingTimer then some (pollPendingMessages s env) else none
  | RTEvent.push it =>
      if s.subscriptionActive then some (onPush s it) else none
  | RTEvent.stop => some (shutdown s)

/-- Run a list of events, failing if any is not enabled. -/
def runRT (s : RTState) : List RTEvent → Option RTState
  | [] => some s
  | e :: es =>
      match rtstep s e with
      | none => none
      | some s' => runRT s' es

/-- States reachable from the fresh manager. -/
inductive RTReachable : RTState → Prop
  | init : RTReachable rtInit
  | step {s s' : RTState} (e : RTEvent) :
      RTReachable s → rtstep s e = some s' → RTReachable s'


/-- Helper field lemmas: `pollPendingMessages` touches only `lastPollTime`
and the log. -/
lemma pollPendingMessages_fields (s : RTState) (env : PollEnv) :
    (pollPendingMessages s env).pollingTimer = s.pollingTimer ∧
    (pollPendingMessages s env).isPolling = s.isPolling ∧
    (pollPendingMessages s env).isRealtimeConnected = s.isRealtimeConnected ∧
    (pollPendingMessages s env).mode = s.mode ∧
    (pollPendingMessages s env).subscriptionActive = s.subscriptionActive ∧
    (pollPendingMessages s env).handlerRegistered = s.handlerRegistered ∧
    (pollPendingMessages s env).lastPollTime = some env.now := by
  unfold pollPendingMessages
  by_cases hq : env.queryFails <;> by_cases hr : s.handlerRegistered <;> simp [hq, hr]

/-- `startPolling` installs the timer (the early-return branch needs
`isPolling = pollingTimer`) and touches neither the mode nor the
connection flag. -/
lemma startPolling_fields {s : RTState} (h : s.isPolling = s.pollingTimer) :
    (startPolling s).pollingTimer = true ∧
    (startPolling s).isPolling = true ∧
    (startPolling s).mode = s.mode ∧
    (startPolling s).isRealtimeConnected = s.isRealtimeConnected := by
  unfold startPolling
  cases hp : s.isPolling with
  | true => simp [← h, hp]
  | false =>
      rw [hp] at h
      simp [← h]

/-- `stopPolling` clears the timer and touches neither the mode nor the
connection flag. -/
lemma stopPolling_fields (s : RTState) :
    (stopPolling s).pollingTimer = false ∧
    (stopPolling s).isPolling = false ∧
    (stopPolling s).mode = s.mode ∧
    (stopPolling s).isRealtimeConnected = s.isRealtimeConnected := by
  unfold stopPolling
  by_cases h : s.pollingTimer <;> simp [h]

/-- `shutdown` clears everything and moves the ghost mode to
`disconnected`. -/
lemma shutdown_fields (s : RTState) :
    (shutdown s).pollingTimer = false ∧
    (shutdown s).isPolling = false ∧
    (shutdown s).mode = Mode.disconnected := by
  unfold shutdown
  by_cases h1 : s.subscriptionActive <;> by_cases h2 : s.pollingTimer <;> simp [h1, h2]

/-- The health invariant of the manager: the polling flag mirrors the
installed timer, the `PollFallback` mode always has the timer installed,
and the `PushActive` mode always has the push channel confirmed. -/
def RTInv (s : RTState) : Prop :=
  s.isPolling = s.pollingTimer ∧
  (s.mode = Mode.pollFallback → s.pollingTimer = true) ∧
  (s.mode = Mode.pushActive → s.isRealtimeConnected = true)

lemma rtinv_rtInit : RTInv rtInit := by
  refine ⟨rfl, ?_, ?_⟩ <;> intro h <;> simp [rtInit] at h

lemma rtinv_pollPendingMessages {s : RTState} (h : RTInv s) (env : PollEnv) :
    RTInv (pollPendingMessages s env) := by
  obtain ⟨f1, f2, f3, f4, _, _, _⟩ := pollPendingMessages_fields s env
  obtain ⟨h1, h2, h3⟩ := h
  exact ⟨by rw [f1, f2, h1], by rw [f1, f4]; exact h2, by rw [f3, f4]; exact h3⟩

lemma rtinv_initializeMgr {s : RTState} (h : RTInv s) (env : PollEnv)
    (sf : Bool) : RTInv (initializeMgr s env sf) := by
  obtain ⟨h1, h2, h3⟩ := h
  unfold initializeMgr
  cases sf with
  | true =>
      simp only [if_true]
      obtain ⟨f1, f2, f3, f4⟩ :=
        startPolling_fields (s := { s with handlerRegistered := true }) h1
      refine ⟨?_, fun _ => ?_, ?_⟩
      · simp only []
        rw [show ({ startPolling { s with handlerRegistered := true } with
              mode := Mode.pollFallback } : RTState).isPolling =
            (startPolling { s with handlerRegistered := true }).isPolling from rfl]
        rw [f1, f2]
      · exact f1
      · intro hm
        simp at hm
  | false =>
      simp only [if_false]
      apply rtinv_pollPendingMessages
      refine ⟨h1, ?_, ?_⟩ <;> intro hm <;> simp at hm

lemma rtinv_onStatus {s : RTState} (h : RTInv s) (st : String) :
    RTInv (onStatus s st) := by
  obtain ⟨h1, h2, h3⟩ := h
  unfold onStatus
  by_cases hs : st = "SUBSCRIBED"
  · rw [if_pos hs]
    by_cases hp : s.isPolling
    · rw [if_pos (by simpa using hp)]
      obtain ⟨f1, f2, f3, f4⟩ :=
        stopPolling_fields { s with isRealtimeConnected := true, mode := Mode.pushActive }
      refine ⟨by rw [f1, f2], ?_, ?_⟩
      · rw [f3]
        intro hm
        simp at hm
      · rw [f4]
        intro _
        rfl
    · rw [if_neg (by simpa using hp)]
      refine ⟨h1, ?_, fun _ => rfl⟩
      intro hm
      simp at hm
  · rw [if_neg hs]
    by_cases he : st = "CHANNEL_ERROR"
    · rw [if_pos he]
      by_cases hp : s.isPolling
      · rw [if_pos (by simpa using hp)]
        refine ⟨h1, fun _ => ?_, ?_⟩
        · rw [← h1]
          simpa using hp
        · intro hm
          simp at hm
      · rw [if_neg (by simpa using hp)]
        obtain ⟨f1, f2, f3, f4⟩ :=
          startPolling_fields
            (s := { s with isRealtimeConnected := false, mode := Mode.pollFallback })
            (by simpa using h1)
        refine ⟨by rw [f1, f2], fun _ => f1, ?_⟩
        rw [f3]
        intro hm
        simp at hm
    · rw [if_neg he]
      exact ⟨h1, h2, h3⟩

lemma rtinv_onPush {s : RTState} (h : RTInv s) (it : Item) :
    RTInv (onPush s it) := by
  obtain ⟨h1, h2, h3⟩ := h
  unfold onPush
  by_cases hr : s.handlerRegistered
  · rw [if_pos hr]
    exact ⟨h1, h2, h3⟩
  · rw [if_neg hr]
    exact ⟨h1, h2, h3⟩

lemma rtinv_shutdown (s : RTState) : RTInv (shutdown s) := by
  obtain ⟨f1, f2, f3⟩ := shutdown_fields s
  refine ⟨by rw [f1, f2], ?_, ?_⟩ <;> rw [f3] <;> intro hm <;> cases hm

/-- Every reachable manager state satisfies the health invariant. -/
lemma rtinv_reachable {s : RTState} (h : RTReachable s) : RTInv s := by
  induction h with
  | init => exact rtinv_rtInit
  | step e _ hstep ih =>
      cases e with
      | start env sf =>
          simp only [rtstep] at hstep
          split at hstep
          · cases hstep
          · cases hstep
            exact rtinv_initializeMgr ih env sf
      | status st =>
          simp only [rtstep] at hstep
          split at hstep
          · cases hstep
            exact rtinv_onStatus ih st
          · cases hstep
      | tick env =>
          simp only [rtstep] at hstep
          split at hstep
          · cases hstep
            exact rtinv_pollPendingMessages ih env
          · cases hstep
      | push it =>
          simp only [rtstep] at hstep
          split at hstep
          · cases hstep
            exact rtinv_onPush ih it
          · cases hstep
      | stop =>
          simp only [rtstep, Option.some.injEq] at hstep
          rw [← hstep]
          exact rtinv_shutdown _

lemma filterMap_queryOfAction_calls (L : List Item) :
    (L.map (fun m => RTAction.handlerCall m.id)).filterMap queryOfAction = [] := by
  induction L with
  | nil => rfl
  | cons m t ih => simpa [queryOfAction] using ih

lemma filterMap_handlerCallOfAction_calls (L : List Item) :
    (L.map (fun m => RTAction.handlerCall m.id)).filterMap handlerCallOfAction =
      L.map Item.id := by
  induction L with
  | nil => rfl
  | cons m t ih => simpa [handlerCallOfAction] using ih

lemma filterMap_comp_handlerCall (L : List Item) :
    List.filterMap (handlerCallOfAction ∘ fun m => RTAction.handlerCall m.id) L =
      L.map Item.id := by
  induction L with
  | nil => rfl
  | cons m t ih => simpa [handlerCallOfAction] using ih

lemma filterMap_comp_query (L : List Item) :
    List.filterMap (queryOfAction ∘ fun m => RTAction.handlerCall m.id) L = [] := by
  induction L with
  | nil => rfl
  | cons m t ih => simpa [queryOfAction] using ih

/-- A batch in which no callback throws hands over every item, in order. -/
lemma deliverBatch_noFail (fails : Item → Bool) (L : List Item)
    (h : ∀ x ∈ L, fails x = false) : deliverBatch fails L = (L, false) := by
  induction L with
  | nil => rfl
  | cons m t ih =>
      have hm : fails m = false := h m (by simp)
      have ih' := ih (fun x hx => h x (by simp [hx]))
      simp [deliverBatch, hm, ih']

/-- A batch whose callback throws on item `m` hands over the items before
`m` and `m` itself, then aborts: the items after `m` are not handed
over. -/
lemma deliverBatch_abort (fails : Item → Bool) (pre : List Item) (m : Item)
    (post : List Item) (hpre : ∀ x ∈ pre, fails x = false) (hm : fails m = true) :
    deliverBatch fails (pre ++ m :: post) = (pre ++ [m], true) := by
  induction pre with
  | nil => simp [deliverBatch, hm]
  | cons a t ih =>
      have ha : fails a = false := hpre a (by simp)
      have ih' := ih (fun x hx => hpre x (by simp [hx]))
      simp [deliverBatch, ha, ih']

/-- The exact log growth of one poll cycle: the watermark write comes
first, then the query, then the handler calls of the (possibly aborted)
batch. -/
lemma pollPendingMessages_log (s : RTState) (env : PollEnv) :
    (pollPendingMessages s env).log =
      s.log ++ [RTAction.setLastPoll env.now, RTAction.query pendingQuery] ++
        (if env.queryFails then []
         else if s.handlerRegistered then
           (deliverBatch env.handlerFails (runQuery env.db)).1.map
             (fun m => RTAction.handlerCall m.id)
         else []) := by
  unfold pollPendingMessages
  by_cases hq : env.queryFails <;> by_cases hr : s.handlerRegistered <;>
    simp [hq, hr]

/-- Every poll cycle issues exactly one query, and it is always the
unbounded `pendingQuery`. -/
lemma queriesOf_poll (s : RTState) (env : PollEnv) :
    queriesOf (pollPendingMessages s env) = queriesOf s ++ [pendingQuery] := by
  unfold queriesOf
  rw [pollPendingMessages_log]
  by_cases hq : env.queryFails <;> by_cases hr : s.handlerRegistered <;>
    simp [hq, hr, List.filterMap_append, filterMap_queryOfAction_calls,
      queryOfAction]

/-- The handler calls contributed by one poll cycle. -/
lemma handlerCallsOf_poll (s : RTState) (env : PollEnv) :
    handlerCallsOf (pollPendingMessages s env) =
      handlerCallsOf s ++
        (if env.queryFails then []
         else if s.handlerRegistered then
           (deliverBatch env.handlerFails (runQuery env.db)).1.map Item.id
         else []) := by
  unfold handlerCallsOf
  rw [pollPendingMessages_log]
  by_cases hq : env.queryFails <;> by_cases hr : s.handlerRegistered <;>
    simp [hq, hr, List.filterMap_append, filterMap_handlerCallOfAction_calls,
      filterMap_comp_handlerCall, handlerCallOfAction]

/-- Modelled from the spec: the query shape the claim requires on a
recurring poll tick — the pending-status query lower-bounded by the
current watermark (`lastPollTimestamp`).  The source never issues such a
query; it is defined only to compare against `pendingQuery`. -/
def specWatermarkQuery (lastPoll : Option Nat) : QueryDesc :=
  { pendingQuery with lowerBound := lastPoll }

/-- Environments for the concrete two-cycle run used against C4: one
pending item created at time 50; the first reconciliation pull happens at
time 100, a fallback tick at time 200. -/
def c4Env1 : PollEnv := ⟨100, [⟨1, 50, "pending"⟩], false, fun _ => false⟩

def c4Env2 : PollEnv := ⟨200, [⟨1, 50, "pending"⟩], false, fun _ => false⟩

def c4Run : Option RTState :=
  runRT rtInit
    [RTEvent.start c4Env1 false, RTEvent.status "CHANNEL_ERROR", RTEvent.tick c4Env2]

/-- **C4, counterexample**: on the recurring tick at time 200 — issued
while `lastPollTime = some 100` — the manager issues the same unbounded
`pendingQuery` (no lower bound at all), not the watermark-bounded query
the claim requires, so the still-pending item 1 is handed to the consumer
a second time; and the log shows `setLastPoll 200` recorded at the start
of the cycle, before the query and the handler call of the batch, not
after the batch completes. -/
theorem c4_counterexample :
    c4Run.map (fun s => (queriesOf s, handlerCallsOf s, s.lastPollTime, s.log)) =
      some ([pendingQuery, pendingQuery], [1, 1], some 200,
        [RTAction.subscribeChannel, RTAction.setLastPoll 100,
         RTAction.query pendingQuery, RTAction.handlerCall 1,
         RTAction.startTimer 5000, RTAction.setLastPoll 200,
         RTAction.query pendingQuery, RTAction.handlerCall 1]) ∧
    pendingQuery ≠ specWatermarkQuery (some 100) := by
  exact ⟨rfl, by decide⟩

/-- **C4, amended**: every poll cycle — the first and every later one —
queries all items in the pending state with no lower bound (the watermark
is never used as a query bound, so still-pending items are re-queried),
ordered oldest first (the query result is sorted by `created_at` and is a
permutation of the pending rows); and `lastPollTime` is set to the cycle
start time at the beginning of the cycle, before the query and the batch,
as the log order shows. -/
theorem c4_amended (s : RTState) (env : PollEnv) (i : Item) :
    queriesOf (pollPendingMessages s env) = queriesOf s ++ [pendingQuery] ∧
    pendingQuery.lowerBound = none ∧
    pendingQuery.ascending = true ∧
    (pollPendingMessages s env).lastPollTime = some env.now ∧
    (pollPendingMessages s env).log =
      s.log ++ [RTAction.setLastPoll env.now, RTAction.query pendingQuery] ++
        (if env.queryFails then []
         else if s.handlerRegistered then
           (deliverBatch env.handlerFails (runQuery env.db)).1.map
             (fun m => RTAction.handlerCall m.id)
         else []) ∧
    List.Sorted createdLe (runQuery env.db) ∧
    (runQuery env.db).count i =
      (env.db.filter (fun m => m.status == "pending")).count i := by
  refine ⟨queriesOf_poll s env, rfl, rfl,
    (pollPendingMessages_fields s env).2.2.2.2.2.2,
    pollPendingMessages_log s env, ?_, ?_⟩
  · exact List.sorted_insertionSort createdLe _
  · exact (List.perm_insertionSort createdLe _).count_eq i

/-- Environments for the concrete run used against C5: an empty first
pull, then a fallback tick over a batch of two pending items in which the
consumer callback throws on the first item. -/
def c5Env1 : PollEnv := ⟨100, [], false, fun _ => false⟩

def c5EnvF : PollEnv :=
  ⟨300, [⟨1, 10, "pending"⟩, ⟨2, 20, "pending"⟩], false, fun m => m.id == 1⟩

def c5Run : Option RTState :=
  runRT rtInit
    [RTEvent.start c5Env1 false, RTEvent.status "CHANNEL_ERROR", RTEvent.tick c5EnvF]

/-- **C5, counterexample**: the tick at time 300 pulls a batch of two
items (ids 1 and 2, in order); the callback throws on item 1 (k = 1 <
n = 2), yet item 2 is never handed to the callback — the exception is
caught at the batch level, not per item.  The failure does leave the poll
timer installed and the mode unchanged. -/
theorem c5_counterexample :
    c5Run.map (fun s => (handlerCallsOf s, s.pollingTimer, s.isPolling, s.mode)) =
      some ([1], true, true, Mode.pollFallback) ∧
    (runQuery c5EnvF.db).map Item.id = [1, 2] ∧
    ([1] : List Nat) ≠ [1, 2] := by
  exact ⟨rfl, rfl, by decide⟩

/-- **C5, amended**: a consumer-callback failure during a pull batch is
caught at the batch level: the callback runs for the items before the
failing one and for the failing item itself, and the remaining items of
the batch are skipped; the failure does not stop the poll timer, does not
change the polling flag, the connection flag or the mode. -/
theorem c5_amended (s : RTState) (env : PollEnv) (pre : List Item) (m : Item)
    (post : List Item)
    (hq : runQuery env.db = pre ++ m :: post)
    (hpre : ∀ x ∈ pre, env.handlerFails x = false)
    (hm : env.handlerFails m = true)
    (hqf : env.queryFails = false)
    (hreg : s.handlerRegistered = true) :
    handlerCallsOf (pollPendingMessages s env) =
      handlerCallsOf s ++ (pre ++ [m]).map Item.id ∧
    (pollPendingMessages s env).pollingTimer = s.pollingTimer ∧
    (pollPendingMessages s env).isPolling = s.isPolling ∧
    (pollPendingMessages s env).isRealtimeConnected = s.isRealtimeConnected ∧
    (pollPendingMessages s env).mode = s.mode := by
  obtain ⟨f1, f2, f3, f4, _, _, _⟩ := pollPendingMessages_fields s env
  refine ⟨?_, f1, f2, f3, f4⟩
  rw [handlerCallsOf_poll, hq, deliverBatch_abort env.handlerFails pre m post hpre hm]
  simp [hqf, hreg]

/-- State for the `c5_amended` witness: a fresh manager with the handler
registered. -/
def c5WitState : RTState := { rtInit with handlerRegistered := true }

/-- Witness for `c5_amended`, on the two-item batch of `c5EnvF`. -/
theorem c5_amended_witness :
    handlerCallsOf (pollPendingMessages c5WitState c5EnvF) =
      handlerCallsOf c5WitState ++ [1] ∧
    (pollPendingMessages c5WitState c5EnvF).pollingTimer = c5WitState.pollingTimer ∧
    (pollPendingMessages c5WitState c5EnvF).isPolling = c5WitState.isPolling ∧
    (pollPendingMessages c5WitState c5EnvF).isRealtimeConnected =
      c5WitState.isRealtimeConnected ∧
    (pollPendingMessages c5WitState c5EnvF).mode = c5WitState.mode :=
  c5_amended c5WitState c5EnvF [] ⟨1, 10, "pending"⟩ [⟨2, 20, "pending"⟩]
    (by decide) (by simp) (by decide) rfl rfl

/-- The environment of the `c6` counterexample and witness runs. -/
def c6Env : PollEnv := ⟨0, [], false, fun _ => false⟩

/-- The state reached by a successful `initialize` alone: the subscription
is registered but not yet confirmed and no status signal has arrived. -/
def c6SubscribingState : RTState := initializeMgr rtInit c6Env false

/-- **C6, counterexample**: the state reached by `initialize` alone (with
the subscription setup succeeding and no status signal yet) is reachable,
is not a post-`shutdown` state (no `stop` event occurs in the trace; its
ghost mode is `subscribing`, while `shutdown` forces `disconnected`), and
has neither the push subscription confirmed nor the poll timer running —
the claimed invariant is violated in the Subscribing window. -/
theorem c6_counterexample :
    RTReachable c6SubscribingState ∧
    c6SubscribingState.isRealtimeConnected = false ∧
    c6SubscribingState.pollingTimer = false ∧
    c6SubscribingState.isPolling = false ∧
    c6SubscribingState.mode = Mode.subscribing := by
  refine ⟨RTReachable.step (RTEvent.start c6Env false) RTReachable.init rfl,
    rfl, rfl, rfl, rfl⟩

/-- **C6, amended**: over every reachable state, a state with neither the
push subscription confirmed nor the poll timer running can only be the
initial `Disconnected` state, a post-`shutdown` state (both have ghost
mode `disconnected`), or the `Subscribing` window between a successful
`initialize` and its first status signal; and an `error` status signal,
or `initialize` with the subscription setup throwing, always leaves the
recurring poll timer running. -/
theorem c6_failover_liveness (s : RTState) (h : RTReachable s) (env : PollEnv) :
    (s.isRealtimeConnected = false → s.pollingTimer = false →
      s.mode = Mode.disconnected ∨ s.mode = Mode.subscribing) ∧
    (onStatus s "CHANNEL_ERROR").pollingTimer = true ∧
    (initializeMgr s env true).pollingTimer = true := by
  obtain ⟨h1, h2, h3⟩ := rtinv_reachable h
  refine ⟨?_, ?_, ?_⟩
  · intro hc ht
    cases hm : s.mode with
    | disconnected => exact Or.inl rfl
    | subscribing => exact Or.inr rfl
    | pushActive => rw [h3 hm] at hc; cases hc
    | pollFallback => rw [h2 hm] at ht; cases ht
  · unfold onStatus
    rw [if_neg (by decide), if_pos rfl]
    by_cases hp : s.isPolling
    · rw [if_pos (by simpa using hp)]
      show s.pollingTimer = true
      rw [← h1]
      simpa using hp
    · rw [if_neg (by simpa using hp)]
      exact (startPolling_fields
        (s := { s with isRealtimeConnected := false, mode := Mode.pollFallback })
        (by simpa using h1)).1
  · unfold initializeMgr
    simp only [if_true]
    exact (startPolling_fields
      (s := { s with handlerRegistered := true }) (by simpa using h1)).1

/-- Witness for `c6_failover_liveness`, at the fresh manager. -/
theorem c6_failover_liveness_witness :
    (rtInit.mode = Mode.disconnected ∨ rtInit.mode = Mode.subscribing) ∧
    (onStatus rtInit "CHANNEL_ERROR").pollingTimer = true ∧
    (initializeMgr rtInit c6Env true).pollingTimer = true := by
  obtain ⟨h1, h2, h3⟩ := c6_failover_liveness rtInit RTReachable.init c6Env
  exact ⟨h1 rfl rfl, h2, h3⟩

/-- The state reached by `initialize` over a datastore `db`, read at time
`t0`, with a never-throwing consumer callback and a subscription setup
that succeeds. -/
def c9State (db : List Item) (t0 : Nat) : RTState :=
  initializeMgr rtInit ⟨t0, db, false, fun _ => false⟩ false

/-- The manager state right after `initialize` registers the handler and
the subscription, before the initial reconciliation pull. -/
def c9Sub : RTState :=
  { rtInit with subscriptionActive := true, handlerRegistered := true,
                mode := Mode.subscribing, log := [RTAction.subscribeChannel] }

/-- **C9**: `initialize` registers the push subscription and then performs
exactly one reconciliation pull — the log shows the subscription
registration followed by a single query — without starting the recurring
poll timer; every pending item of the datastore (in particular one created
before `initialize` and never pushed) is handed to the consumer exactly
once by that pull (the delivered ids are a permutation of the pending row
ids, counted once each), and a later `confirmed` status signal adds no
further deliveries. -/
theorem c9_reconciliation (db : List Item) (t0 : Nat) (i : Nat) :
    (c9State db t0).subscriptionActive = true ∧
    queriesOf (c9State db t0) = [pendingQuery] ∧
    (c9State db t0).pollingTimer = false ∧
    (c9State db t0).isPolling = false ∧
    (c9State db t0).log =
      RTAction.subscribeChannel :: RTAction.setLastPoll t0 ::
        RTAction.query pendingQuery ::
          (runQuery db).map (fun m => RTAction.handlerCall m.id) ∧
    handlerCallsOf (c9State db t0) = (runQuery db).map Item.id ∧
    (handlerCallsOf (c9State db t0)).count i =
      ((db.filter (fun m => m.status == "pending")).map Item.id).count i ∧
    handlerCallsOf (onStatus (c9State db t0) "SUBSCRIBED") =
      handlerCallsOf (c9State db t0) := by
  have hstate : c9State db t0 =
      pollPendingMessages c9Sub ⟨t0, db, false, fun _ => false⟩ := rfl
  have hnofail :
      deliverBatch (fun _ => false) (runQuery db) = (runQuery db, false) :=
    deliverBatch_noFail _ _ (fun x _ => rfl)
  have hfields := pollPendingMessages_fields c9Sub ⟨t0, db, false, fun _ => false⟩
  have hlog : (c9State db t0).log =
      RTAction.subscribeChannel :: RTAction.setLastPoll t0 ::
        RTAction.query pendingQuery ::
          (runQuery db).map (fun m => RTAction.handlerCall m.id) := by
    rw [hstate, pollPendingMessages_log]
    simp [c9Sub, hnofail]
  have hcalls : handlerCallsOf (c9State db t0) = (runQuery db).map Item.id := by
    unfold handlerCallsOf
    rw [hlog]
    simp [handlerCallOfAction, filterMap_comp_handlerCall]
  have hpoll : (c9State db t0).isPolling = false := by
    rw [hstate]
    exact hfields.2.1.trans rfl
  refine ⟨?_, ?_, ?_, hpoll, hlog, hcalls, ?_, ?_⟩
  · rw [hstate]
    exact hfields.2.2.2.2.1.trans rfl
  · unfold queriesOf
    rw [hlog]
    simp [queryOfAction, filterMap_comp_query]
  · rw [hstate]
    exact hfields.1.trans rfl
  · rw [hcalls]
    exact ((List.perm_insertionSort createdLe _).map Item.id).count_eq i
  · unfold onStatus
    rw [if_pos rfl, if_neg (by simp [hpoll])]
    rfl

end RTM
